import Mathlib

/-!
Shallow embedding of the calendar persistence module (database.py).

Conventions of the embedding:

- SQLite TEXT datetimes in the fixed-width format YYYY-MM-DD HH:MM:SS are
  represented by the structure DT: the calendar day as a proleptic Gregorian
  day number (computed by civilDay from year, month, day) together with the
  second within the day.  For well-formed values (0 <= sec < 86400) the
  lexicographic order on the strings coincides with the numeric order of
  DT.toSec, and the SQLite DATE() prefix extraction is the field DT.day.
- Comparing a full datetime string with a bare date string YYYY-MM-DD
  lexicographically: if the date prefixes differ the shorter date decides;
  if they agree the datetime is the longer string, hence strictly greater.
  Therefore, for a datetime t and a date D,
  t < D as strings iff t.day < D, and t > D as strings iff D <= t.day.
- Python datetime arithmetic on naive values is plain arithmetic on seconds;
  datetime.max.time() carries 999999 microseconds, so the aggregation loop is
  embedded at microsecond resolution (Int), with hours as exact rationals.
- Fallible operations return Except TagError; the sqlite3 ValueError messages
  correspond to the constructors duplicate and notFound.  On such failures the
  source raises before any commit, so the connection closes with the
  transaction rolled back and the stored state is unchanged; the embedding
  reflects this by returning no successor state on error.
- AUTOINCREMENT ids and CURRENT_TIMESTAMP are modelled by the counters
  next_event_id, next_tag_id and the clock field now of the DB state.
-/

/-- A naive datetime: proleptic Gregorian day number and second within day. -/
structure DT where
  day : Int
  sec : Int
  deriving DecidableEq

/-- Total seconds represented by a datetime (day granularity times 86400). -/
def DT.toSec (t : DT) : Int := t.day * 86400 + t.sec

/-- Well-formedness of the second-of-day component, as guaranteed for any
value parsed from a YYYY-MM-DD HH:MM:SS string. -/
def DT.Valid (t : DT) : Prop := 0 ≤ t.sec ∧ t.sec < 86400

instance (t : DT) : Decidable t.Valid := by
  unfold DT.Valid
  infer_instance

/-- Day number of a proleptic Gregorian civil date (the days-from-civil
formula); consecutive dates map to consecutive numbers, which is all the
development relies on besides injectivity. -/
def civilDay (y m d : Nat) : Int :=
  let yy := if m ≤ 2 then y - 1 else y
  let mp := if m ≤ 2 then m + 9 else m - 3
  let era := yy / 400
  let yoe := yy % 400
  let doy := (153 * mp + 2) / 5 + (d - 1)
  let doe := yoe * 365 + yoe / 4 - yoe / 100 + doy
  ((era * 146097 + doe : Nat) : Int)

/-- Convenience constructor for a datetime from day number and H:M:S. -/
def mkDT (day h m s : Int) : DT := ⟨day, h * 3600 + m * 60 + s⟩

/-- Row of the tags table. -/
structure Tag where
  id : Int
  name : String
  color : String
  order_index : Int
  created_at : Int
  deriving DecidableEq

/-- Row of the events table (new schema). -/
structure Event where
  id : Int
  start_datetime : DT
  end_datetime : DT
  title : String
  description : Option String
  tag : Option String
  created_at : Int
  deriving DecidableEq

/-- Row of the legacy events table (date / time schema). The time column, a
string HH:MM when present, is represented as an (hour, minute) pair; Python
treats both NULL and the empty string as absent, which Option none models. -/
structure OldEvent where
  id : Int
  date : Int
  time : Option (Int × Int)
  title : String
  description : Option String
  created_at : Int
  deriving DecidableEq

/-- The whole stored state. -/
structure DB where
  events : List Event
  tags : List Tag
  next_event_id : Int
  next_tag_id : Int
  now : Int
  deriving DecidableEq

/-- Association-list lookup by key (first match), modelling Python dict
indexing of the nested result dictionaries. -/
def alookup {κ α : Type} [DecidableEq κ] (k : κ) : List (κ × α) → Option α
  | [] => none
  | p :: rest => if p.1 = k then some p.2 else alookup k rest

/- ===================== Aggregation engine ===================== -/

/-- Microseconds per day. -/
def usPerDay : Int := 86400000000

/-- Event start instant in microseconds. -/
def Event.startUs (e : Event) : Int := e.start_datetime.toSec * 1000000

/-- Event end instant in microseconds. -/
def Event.endUs (e : Event) : Int := e.end_datetime.toSec * 1000000

/-- datetime.combine(day, datetime.min.time()) in microseconds. -/
def dayStartUs (d : Int) : Int := d * usPerDay

/-- datetime.combine(day, datetime.max.time()) in microseconds:
23:59:59.999999 of the day. -/
def dayEndUs (d : Int) : Int := d * usPerDay + 86399999999

/-- The bucket key: event.tag if truthy else the placeholder Untagged
(Python falsiness makes both NULL and the empty string untagged). -/
def tagOf (e : Event) : String :=
  match e.tag with
  | none => "Untagged"
  | some t => if t = "" then "Untagged" else t

/-- result(date)(tag) += h, creating the tag bucket at 0 if absent; Python
dicts update in place and append new keys at the end. -/
def bucketAdd (m : List (String × ℚ)) (tg : String) (h : ℚ) : List (String × ℚ) :=
  match m with
  | [] => [(tg, h)]
  | (t, v) :: rest => if t = tg then (t, v + h) :: rest else (t, v) :: bucketAdd rest tg h

/-- Update the bucket map of day d inside the per-day accumulator. -/
def updateDay (acc : List (Int × List (String × ℚ))) (d : Int) (tg : String) (h : ℚ) :
    List (Int × List (String × ℚ)) :=
  acc.map (fun p => if p.1 = d then (p.1, bucketAdd p.2 tg h) else p)

/-- Duration, in hours, of the event clipped to day d:
(min(end, day_end) - max(start, day_start)).total_seconds() / 3600.0,
at microsecond resolution. -/
def durHours (e : Event) (d : Int) : ℚ :=
  ((min e.endUs (dayEndUs d) - max e.startUs (dayStartUs d) : Int) : ℚ) / 3600000000

/-- One iteration of the inner day loop: if the event overlaps the day
(start_dt <= day_end and end_dt >= day_start), clip it and add the clipped
hours to the tag bucket of that day. -/
def applyEventDay (e : Event) (acc : List (Int × List (String × ℚ))) (d : Int) :
    List (Int × List (String × ℚ)) :=
  if e.startUs ≤ dayEndUs d ∧ dayStartUs d ≤ e.endUs then
    updateDay acc d (tagOf e) (durHours e d)
  else acc

/-- The days start_date, start_date+1, ... strictly before end_date, the
range both the initialization loop and the per-event day loop iterate. -/
def daysInRange (s e : Int) : List Int :=
  (List.range (e - s).toNat).map (fun (i : Nat) => s + (i : Int))

/-- get_tag_hours_for_week(start_date, end_date).  The SQL filter
start_datetime < end_date AND end_datetime > start_date compares TEXT
datetimes against bare dates, which by the lexicographic analysis above is
start.day < end_date and start_date <= end.day; ORDER BY start_datetime is a
sort on DT.toSec.  The result maps each day of the range to its tag buckets. -/
def get_tag_hours_for_week (db : DB) (start_date end_date : Int) :
    List (Int × List (String × ℚ)) :=
  let evs := db.events.filter
    (fun e => decide (e.start_datetime.day < end_date ∧ start_date ≤ e.end_datetime.day))
  let sorted := List.insertionSort
    (fun a b => a.start_datetime.toSec ≤ b.start_datetime.toSec) evs
  let days := daysInRange start_date end_date
  sorted.foldl (fun acc e => days.foldl (fun a d => applyEventDay e a d) acc)
    (days.map (fun d => (d, ([] : List (String × ℚ)))))

/-- Lookup of result[date][tag]. -/
def lookupHours (res : List (Int × List (String × ℚ))) (d : Int) (tg : String) : Option ℚ :=
  (alookup d res).bind (fun m => alookup tg m)

/- ===================== Schema manager ===================== -/

/-- Python start_dt + timedelta(hours=1), rendered back through strftime.  For
a well-formed datetime (0 <= sec < 86400) at most one midnight carry occurs,
so a single conditional realizes the normalization. -/
def DT.addHour (t : DT) : DT :=
  if t.sec + 3600 < 86400 then ⟨t.day, t.sec + 3600⟩
  else ⟨t.day + 1, t.sec + 3600 - 86400⟩

/-- The body of the migration loop of migrate_schema for one legacy row: with
a truthy time value HH:MM, start is date+time and end is one hour later;
otherwise the all-day defaults 09:00:00 and 17:00:00.  The new row keeps id,
title, description and created_at, and gets tag NULL. -/
def migrate_row (r : OldEvent) : Event :=
  match r.time with
  | some (h, m) =>
    let start : DT := ⟨r.date, h * 3600 + m * 60⟩
    { id := r.id, start_datetime := start, end_datetime := start.addHour,
      title := r.title, description := r.description, tag := none,
      created_at := r.created_at }
  | none =>
    { id := r.id, start_datetime := ⟨r.date, 9 * 3600⟩,
      end_datetime := ⟨r.date, 17 * 3600⟩, title := r.title,
      description := r.description, tag := none, created_at := r.created_at }

/-- migrate_schema: every legacy row is rewritten into events_new, which then
atomically replaces the events table (DROP plus RENAME before the commit). -/
def migrate_schema (old : List OldEvent) : List Event := old.map migrate_row

/- ===================== Event store ===================== -/

/-- get_events_by_date(date): the WHERE clause compares TEXT datetimes with
the 19-character bounds date 00:00:00 and date 23:59:59, where lexicographic
equals chronological order at second resolution, and DATE() extraction is the
day field; ORDER BY start_datetime ascending. -/
def get_events_by_date (db : DB) (d : Int) : List Event :=
  let date_start := d * 86400
  let date_end := d * 86400 + 86399
  let sel := db.events.filter (fun e =>
    decide ((e.start_datetime.toSec ≤ date_end ∧ date_start ≤ e.end_datetime.toSec)
      ∨ e.start_datetime.day = d ∨ e.end_datetime.day = d))
  List.insertionSort (fun a b => a.start_datetime.toSec ≤ b.start_datetime.toSec) sel

/-- add_event: INSERT with AUTOINCREMENT id and CURRENT_TIMESTAMP created_at,
returning lastrowid.  The Python defaults store empty strings, never NULL. -/
def add_event (db : DB) (start_datetime end_datetime : DT) (title : String)
    (description : String := "") (tag : String := "") : DB × Int :=
  ({ db with
      events := db.events ++
        [{ id := db.next_event_id, start_datetime := start_datetime,
           end_datetime := end_datetime, title := title,
           description := some description, tag := some tag,
           created_at := db.now }],
      next_event_id := db.next_event_id + 1 },
   db.next_event_id)

/-- update_event: full overwrite of all fields except id and created_at for
the row with the given id; a silent no-op when no row matches. -/
def update_event (db : DB) (event_id : Int) (start_datetime end_datetime : DT)
    (title : String) (description : String := "") (tag : String := "") : DB :=
  { db with
      events := db.events.map (fun e =>
        if e.id = event_id then
          { e with
            start_datetime := start_datetime,
            end_datetime := end_datetime,
            title := title,
            description := some description,
            tag := some tag }
        else e) }

/-- delete_event: DELETE FROM events WHERE id = ?; silent no-op if absent. -/
def delete_event (db : DB) (event_id : Int) : DB :=
  { db with events := db.events.filter (fun e => decide (e.id ≠ event_id)) }

/- ===================== Bulk importer ===================== -/

/-- One input record of bulk_add_events; Python dict.get misses are Option
none (a falsy empty-string datetime also skips a record, which none models). -/
structure BulkRecord where
  title : Option String
  description : Option String
  start_datetime : Option DT
  end_datetime : Option DT
  deriving DecidableEq

/-- The loop body of bulk_add_events: a record with both datetimes present is
inserted (title defaulting to the placeholder, description to the empty
string, the shared tag argument), incrementing the counter; every other
record is skipped silently, neither counted nor erroring. -/
def bulk_step (tag : String) (acc : DB × Nat) (r : BulkRecord) : DB × Nat :=
  match r.start_datetime, r.end_datetime with
  | some s, some en =>
    ({ acc.1 with
        events := acc.1.events ++
          [{ id := acc.1.next_event_id, start_datetime := s, end_datetime := en,
             title := r.title.getD "(no title)",
             description := some (r.description.getD ""),
             tag := some tag, created_at := acc.1.now }],
        next_event_id := acc.1.next_event_id + 1 },
     acc.2 + 1)
  | _, _ => acc

/-- bulk_add_events(events, tag): one transaction, folding bulk_step over the
input from the untouched state and a zero counter; the early return 0 on an
empty input coincides with the empty fold, and the returned number is the
final counter. -/
def bulk_add_events (db : DB) (events : List BulkRecord) (tag : String := "") :
    DB × Nat :=
  events.foldl (bulk_step tag) (db, 0)

/- ===================== Tag store ===================== -/

/-- The error taxonomy: sqlite3.IntegrityError on the UNIQUE name column is
re-raised as the duplicate ValueError, and a missing tag id raises the
not-found ValueError.  In both cases the source raises before any commit, so
the stored state is unchanged. -/
inductive TagError where
  | duplicate (name : String)
  | notFound (id : Int)
  deriving DecidableEq

/-- Result of delete_tag: the success dict with its event_count, or the
failure dict for an unknown id (returned, not raised). -/
inductive DeleteTagResult where
  | notFound
  | deleted (event_count : Nat)
  deriving DecidableEq

/-- get_all_tags: SELECT * FROM tags ORDER BY order_index. -/
def get_all_tags (db : DB) : List Tag :=
  List.insertionSort (fun a b => a.order_index ≤ b.order_index) db.tags

/-- SELECT MAX(order_index) FROM tags: NULL on an empty table. -/
def sqlMaxOrder (tags : List Tag) : Option Int :=
  tags.foldl (fun acc t =>
    match acc with
    | none => some t.order_index
    | some m => some (max m t.order_index)) none

/-- add_tag(name, color, order_index=None).  When order_index is omitted the
source computes (max_order or 0) + 1; the Python or maps the NULL of an empty
table to 0 and also maps a stored maximum of 0 to 0, which is exactly
Option.getD 0.  The INSERT raises IntegrityError exactly when the name is
already present. -/
def add_tag (db : DB) (name color : String) (order_index : Option Int := none) :
    Except TagError (DB × Int) :=
  let oi :=
    match order_index with
    | some o => o
    | none => (sqlMaxOrder db.tags).getD 0 + 1
  if db.tags.any (fun t => decide (t.name = name)) then
    Except.error (TagError.duplicate name)
  else
    Except.ok
      ({ db with
          tags := db.tags ++
            [{ id := db.next_tag_id, name := name, color := color,
               order_index := oi, created_at := db.now }],
          next_tag_id := db.next_tag_id + 1 },
       db.next_tag_id)

/-- update_tag(tag_id, name, color): first the SELECT of the old name (first
row with the id; not-found error if none), then the UPDATE of the tags row,
which raises IntegrityError exactly when a different row already holds the
new name, and finally, within the same transaction, the cascading UPDATE of
every event whose tag equals the old name (SQL = never matches NULL). -/
def update_tag (db : DB) (tag_id : Int) (name color : String) :
    Except TagError DB :=
  match db.tags.find? (fun t => decide (t.id = tag_id)) with
  | none => Except.error (TagError.notFound tag_id)
  | some t0 =>
    if db.tags.any (fun t => decide (t.id ≠ tag_id ∧ t.name = name)) then
      Except.error (TagError.duplicate name)
    else
      Except.ok
        { db with
            tags := db.tags.map (fun t =>
              if t.id = tag_id then { t with name := name, color := color } else t),
            events :=
              if t0.name ≠ name then
                db.events.map (fun e =>
                  if e.tag = some t0.name then { e with tag := some name } else e)
              else db.events }

/-- delete_tag(tag_id): failure dict if the id is absent; otherwise count the
events whose tag equals the name of the tag, detach them to NULL (the source
guards the UPDATE behind count > 0), delete the tags row, and return the
success dict with the count. -/
def delete_tag (db : DB) (tag_id : Int) : DB × DeleteTagResult :=
  match db.tags.find? (fun t => decide (t.id = tag_id)) with
  | none => (db, DeleteTagResult.notFound)
  | some t0 =>
    let event_count := (db.events.filter (fun e => decide (e.tag = some t0.name))).length
    let events2 :=
      if 0 < event_count then
        db.events.map (fun e =>
          if e.tag = some t0.name then { e with tag := none } else e)
      else db.events
    let tags2 := db.tags.filter (fun t => decide (t.id ≠ tag_id))
    ({ db with events := events2, tags := tags2 }, DeleteTagResult.deleted event_count)

/- ===================== General lemmas and instances ===================== -/

instance : IsTotal Event (fun a b => a.start_datetime.toSec ≤ b.start_datetime.toSec) :=
  ⟨fun _ _ => le_total _ _⟩

instance : IsTrans Event (fun a b => a.start_datetime.toSec ≤ b.start_datetime.toSec) :=
  ⟨fun _ _ _ hab hbc => le_trans hab hbc⟩

lemma find_tag_by_id {tags : List Tag} {t : Tag}
    (hnd : (tags.map Tag.id).Nodup) (ht : t ∈ tags) :
    tags.find? (fun x => decide (x.id = t.id)) = some t := by
  induction tags with
  | nil => cases ht
  | cons a rest ih =>
    simp only [List.map_cons, List.nodup_cons] at hnd
    rcases List.mem_cons.mp ht with h | h
    · subst h
      exact List.find?_cons_of_pos _ (by simp)
    · have hne : a.id ≠ t.id := by
        intro he
        exact hnd.1 (he ▸ List.mem_map_of_mem Tag.id h)
      rw [List.find?_cons_of_neg _ (by simp [hne])]
      exact ih hnd.2 h

lemma find_tag_by_id_none {tags : List Tag} {tid : Int}
    (h : ∀ t ∈ tags, t.id ≠ tid) :
    tags.find? (fun x => decide (x.id = tid)) = none :=
  List.find?_eq_none.mpr (fun x hx => by simp [h x hx])

/- ===================== Claim C3 ===================== -/

/-- The per-row migration contract: id and created_at preserved; a truthy
time H:M gives start date H:M:00 and end exactly one hour later; a missing
time gives the all-day 09:00:00 to 17:00:00 defaults. -/
def MigratesTo (r : OldEvent) (e : Event) : Prop :=
  e.id = r.id ∧ e.created_at = r.created_at ∧
  (∀ h m, r.time = some (h, m) →
    e.start_datetime = ⟨r.date, h * 3600 + m * 60⟩ ∧
    e.end_datetime.toSec = e.start_datetime.toSec + 3600) ∧
  (r.time = none →
    e.start_datetime = ⟨r.date, 9 * 3600⟩ ∧
    e.end_datetime = ⟨r.date, 17 * 3600⟩)

/-- Claim C3: schema migration maps every legacy row, positionally, to a new
row with the same id and created_at; a row with a time value H:M becomes
start date H:M:00 with end one hour later, and a row with no time becomes
09:00:00 to 17:00:00 of the same date. -/
theorem migrate_schema_maps_every_row (old : List OldEvent) :
    List.Forall₂ MigratesTo old (migrate_schema old) := by
  unfold migrate_schema
  rw [List.forall₂_map_right_iff, List.forall₂_same]
  intro r _
  refine ⟨?_, ?_, ?_, ?_⟩
  · cases hm : r.time with
    | none => simp [migrate_row, hm]
    | some p => cases p with
      | mk h m => simp [migrate_row, hm]
  · cases hm : r.time with
    | none => simp [migrate_row, hm]
    | some p => cases p with
      | mk h m => simp [migrate_row, hm]
  · intro h m hm
    refine ⟨by simp [migrate_row, hm], ?_⟩
    simp only [migrate_row, hm]
    unfold DT.addHour DT.toSec
    by_cases hc : (h * 3600 + m * 60 : Int) + 3600 < 86400
    · simp only [hc, if_true]
      ring
    · simp only [hc, if_false]
      ring
  · intro hn
    simp [migrate_row, hn]

/-- A concrete legacy table: one row with time 14:30, one all-day row. -/
def demoOldRows : List OldEvent :=
  [ { id := 7, date := civilDay 2024 1 1, time := some (14, 30), title := "a",
      description := some "", created_at := 5 },
    { id := 8, date := civilDay 2024 1 1, time := none, title := "b",
      description := none, created_at := 6 } ]

/-- Witness for C3 at a concrete legacy table: the row (2024-01-01, 14:30)
migrates to 2024-01-01 14:30:00 .. 15:30:00 and the all-day row to
09:00:00 .. 17:00:00, ids and created_at kept. -/
theorem migrate_schema_maps_every_row_witness :
    List.Forall₂ MigratesTo demoOldRows (migrate_schema demoOldRows) ∧
    migrate_schema demoOldRows =
      [ { id := 7, start_datetime := ⟨civilDay 2024 1 1, 52200⟩,
          end_datetime := ⟨civilDay 2024 1 1, 55800⟩, title := "a",
          description := some "", tag := none, created_at := 5 },
        { id := 8, start_datetime := ⟨civilDay 2024 1 1, 32400⟩,
          end_datetime := ⟨civilDay 2024 1 1, 61200⟩, title := "b",
          description := none, tag := none, created_at := 6 } ] :=
  ⟨migrate_schema_maps_every_row demoOldRows, by decide⟩

/- ===================== Claim C8 ===================== -/

/-- An empty database state. -/
def emptyDB : DB :=
  { events := [], tags := [], next_event_id := 1, next_tag_id := 1, now := 0 }

/-- A state whose only tag has a negative order_index. -/
def dbNegOrder : DB :=
  { events := [],
    tags := [ { id := 1, name := "A", color := "#000000", order_index := -2,
                created_at := 0 } ],
    next_event_id := 1, next_tag_id := 2, now := 0 }

/-- Counterexample to C8 as stated: on a table whose only tag has
order_index -2, add_tag with order_index omitted assigns -1, not
max(existing order_index, 0) + 1 = 1: the source computes
(max_order or 0) + 1, and the Python or does not replace a negative
maximum by 0. -/
theorem add_tag_default_order_counterexample :
    (add_tag dbNegOrder "B" "#ffffff").toOption.map
        (fun p => p.1.tags.map Tag.order_index) = some [-2, -1] ∧
    (-1 : Int) ≠ max (-2 : Int) 0 + 1 := by
  constructor
  · decide
  · decide

/-- Claim C8 (amended): add_tag with order_index omitted assigns
(MAX(order_index) of the existing tags, or 0 when the table is empty) + 1;
this equals max(existing order_index, 0) + 1 whenever the maximum is
nonnegative — in particular the first tag of an empty table gets 1 — but
not when every existing order_index is negative. -/
theorem add_tag_default_order (db : DB) (name color : String)
    (hdup : ∀ t ∈ db.tags, t.name ≠ name) :
    (add_tag db name color).toOption.map (fun p => (p.2, p.1.tags.getLast?)) =
      some (db.next_tag_id,
        some { id := db.next_tag_id, name := name, color := color,
               order_index := (sqlMaxOrder db.tags).getD 0 + 1,
               created_at := db.now }) ∧
    (db.tags = [] → (sqlMaxOrder db.tags).getD 0 + 1 = 1) := by
  have hany : ¬ (db.tags.any (fun t => decide (t.name = name)) = true) := by
    simp only [List.any_eq_true, decide_eq_true_eq]
    rintro ⟨t, ht, hname⟩
    exact hdup t ht hname
  constructor
  · unfold add_tag
    rw [if_neg hany]
    simp only [Except.toOption, Option.map_some']
    rw [List.getLast?_append_cons]
    rfl
  · intro hnil
    rw [hnil]
    rfl

/-- Witness for the amended C8: on the empty table the first tag gets
order_index 1. -/
theorem add_tag_default_order_witness :
    (∀ t ∈ emptyDB.tags, t.name ≠ "Work") ∧
    (add_tag emptyDB "Work" "#007bff").toOption.map
        (fun p => (p.2, p.1.tags.getLast?)) =
      some (1, some { id := 1, name := "Work", color := "#007bff",
                      order_index := 1, created_at := 0 }) := by
  refine ⟨by simp [emptyDB], ?_⟩
  have h := add_tag_default_order emptyDB "Work" "#007bff" (by simp [emptyDB])
  rw [h.1]
  decide

/- ===================== Claim C6 ===================== -/

/-- Claim C6: on a state with globally unique tag names, creating a tag with
an existing name and renaming a tag to a name held by a different tag both
fail with the DuplicateTag error.  The source raises in both cases before any
commit, so the connection closes with the transaction rolled back and both
tables are unchanged; accordingly the model returns no successor state. -/
theorem duplicate_tag_rejected (db : DB) (name color : String) (oi : Option Int)
    (tag_id : Int) (t t2 : Tag)
    (_hnames : (db.tags.map Tag.name).Nodup)
    (ht : t ∈ db.tags) (hname : t.name = name)
    (ht2 : t2 ∈ db.tags) (hid : t2.id = tag_id) (hne : t.id ≠ tag_id) :
    add_tag db name color oi = Except.error (TagError.duplicate name) ∧
    update_tag db tag_id name color = Except.error (TagError.duplicate name) := by
  have hany : db.tags.any (fun x => decide (x.name = name)) = true :=
    List.any_eq_true.mpr ⟨t, ht, by simp [hname]⟩
  constructor
  · unfold add_tag
    rw [if_pos hany]
  · have hany2 : db.tags.any (fun x => decide (x.id ≠ tag_id ∧ x.name = name)) = true :=
      List.any_eq_true.mpr ⟨t, ht, by simp [hname, hne]⟩
    cases hfind : db.tags.find? (fun x => decide (x.id = tag_id)) with
    | none =>
      exfalso
      exact absurd (by simp [hid]) (List.find?_eq_none.mp hfind t2 ht2)
    | some t0 =>
      unfold update_tag
      rw [hfind]
      simp only [hany2, if_true]

/-- A state with two tags A and B for the C6 witness. -/
def dbTwoTags : DB :=
  { events := [],
    tags :=
      [ { id := 1, name := "A", color := "#111111", order_index := 1, created_at := 0 },
        { id := 2, name := "B", color := "#222222", order_index := 2, created_at := 0 } ],
    next_event_id := 1, next_tag_id := 3, now := 0 }

/-- Witness for C6: adding a tag named A again, and renaming tag 2 (B) to A,
both fail with DuplicateTag on the concrete two-tag state. -/
theorem duplicate_tag_rejected_witness :
    add_tag dbTwoTags "A" "#333333" none = Except.error (TagError.duplicate "A") ∧
    update_tag dbTwoTags 2 "A" "#222222" = Except.error (TagError.duplicate "A") :=
  duplicate_tag_rejected dbTwoTags "A" "#333333" none 2
    { id := 1, name := "A", color := "#111111", order_index := 1, created_at := 0 }
    { id := 2, name := "B", color := "#222222", order_index := 2, created_at := 0 }
    (by decide) (by decide) rfl (by decide) rfl (by decide)

/- ===================== Claim C7 ===================== -/

/-- Claim C7: a successful rename by update_tag rewrites, in the single state
returned by the one transaction, the tag field of every event holding the old
name to the new name, leaves every other event unchanged, updates the tag row
itself, and update_tag fails with NotFound when the id is absent. -/
theorem update_tag_renames_events (db : DB) (tag_id : Int) (name color : String)
    (t : Tag) :
    ((db.tags.map Tag.id).Nodup → t ∈ db.tags → t.id = tag_id →
      (∀ t2 ∈ db.tags, t2.id ≠ tag_id → t2.name ≠ name) → t.name ≠ name →
      ∃ db2, update_tag db tag_id name color = Except.ok db2 ∧
        db2.events = db.events.map (fun e =>
          if e.tag = some t.name then { e with tag := some name } else e) ∧
        db2.tags.map (fun x => (x.id, x.name, x.color)) =
          db.tags.map (fun x =>
            if x.id = tag_id then (x.id, name, color) else (x.id, x.name, x.color))) ∧
    ((∀ t2 ∈ db.tags, t2.id ≠ tag_id) →
      update_tag db tag_id name color = Except.error (TagError.notFound tag_id)) := by
  constructor
  · intro hnd ht hid hno hdiff
    have hfind : db.tags.find? (fun x => decide (x.id = tag_id)) = some t := by
      rw [← hid]
      exact find_tag_by_id hnd ht
    have hany : ¬ (db.tags.any (fun x => decide (x.id ≠ tag_id ∧ x.name = name)) = true) := by
      simp only [List.any_eq_true, decide_eq_true_eq]
      rintro ⟨x, hx, hxid, hxname⟩
      exact hno x hx hxid hxname
    refine ⟨{ db with
        tags := db.tags.map (fun x =>
          if x.id = tag_id then { x with name := name, color := color } else x),
        events := db.events.map (fun e =>
          if e.tag = some t.name then { e with tag := some name } else e) }, ?_, rfl, ?_⟩
    · unfold update_tag
      simp only [hfind]
      rw [if_neg hany, if_pos hdiff]
    · rw [List.map_map]
      refine List.map_congr_left ?_
      intro x _
      by_cases hxid : x.id = tag_id
      · simp [hxid]
      · simp [hxid]
  · intro hno
    unfold update_tag
    rw [find_tag_by_id_none hno]

/-- State for the C7 and C5 witnesses: one tag A (id 1) referenced by events
10 and 12, with event 11 tagged B. -/
def dbTagged : DB :=
  { events :=
      [ { id := 10, start_datetime := ⟨739343, 36000⟩, end_datetime := ⟨739343, 43200⟩,
          title := "x", description := some "", tag := some "A", created_at := 0 },
        { id := 11, start_datetime := ⟨739343, 39600⟩, end_datetime := ⟨739343, 46800⟩,
          title := "y", description := some "", tag := some "B", created_at := 0 },
        { id := 12, start_datetime := ⟨739344, 36000⟩, end_datetime := ⟨739344, 43200⟩,
          title := "z", description := some "", tag := some "A", created_at := 0 } ],
    tags :=
      [ { id := 1, name := "A", color := "#111111", order_index := 1, created_at := 0 },
        { id := 2, name := "B", color := "#222222", order_index := 2, created_at := 0 } ],
    next_event_id := 13, next_tag_id := 3, now := 0 }

/-- Witness for C7: renaming tag 1 from A to C rewrites events 10 and 12 to
tag C, leaves event 11 untouched, and updating the missing id 99 fails with
NotFound. -/
theorem update_tag_renames_events_witness :
    (∃ db2, update_tag dbTagged 1 "C" "#999999" = Except.ok db2 ∧
      db2.events = dbTagged.events.map (fun e =>
        if e.tag = some "A" then { e with tag := some "C" } else e) ∧
      db2.tags.map (fun x => (x.id, x.name, x.color)) =
        dbTagged.tags.map (fun x =>
          if x.id = 1 then (x.id, "C", "#999999") else (x.id, x.name, x.color))) ∧
    update_tag dbTagged 99 "C" "#999999" = Except.error (TagError.notFound 99) := by
  have h1 := update_tag_renames_events dbTagged 1 "C" "#999999"
    { id := 1, name := "A", color := "#111111", order_index := 1, created_at := 0 }
  have h2 := update_tag_renames_events dbTagged 99 "C" "#999999"
    { id := 1, name := "A", color := "#111111", order_index := 1, created_at := 0 }
  exact ⟨h1.1 (by decide) (by decide) rfl (by decide) (by decide), h2.2 (by decide)⟩

/- ===================== Claim C5 ===================== -/

/-- Claim C5: deleting an existing tag returns the success result carrying
the number of events that referenced it, detaches all of them to a NULL tag
while leaving every other event unchanged, and removes the tag from the
listing; deleting an unknown id returns the failure result without raising
and without touching the state. -/
theorem delete_tag_detaches_events (db : DB) (tag_id : Int) (t : Tag) :
    ((db.tags.map Tag.id).Nodup → t ∈ db.tags → t.id = tag_id →
      ∃ db2, delete_tag db tag_id =
          (db2, DeleteTagResult.deleted
            (db.events.filter (fun e => decide (e.tag = some t.name))).length) ∧
        db2.events = db.events.map (fun e =>
          if e.tag = some t.name then { e with tag := none } else e) ∧
        (∀ e ∈ db2.events, e.tag ≠ some t.name) ∧
        (∀ t2 ∈ get_all_tags db2, t2.id ≠ tag_id)) ∧
    ((∀ t2 ∈ db.tags, t2.id ≠ tag_id) →
      delete_tag db tag_id = (db, DeleteTagResult.notFound)) := by
  constructor
  · intro hnd ht hid
    have hfind : db.tags.find? (fun x => decide (x.id = tag_id)) = some t := by
      rw [← hid]
      exact find_tag_by_id hnd ht
    have hmap : ∀ events2 : List Event,
        events2 = db.events.map (fun e =>
          if e.tag = some t.name then { e with tag := none } else e) →
        (∀ e ∈ events2, e.tag ≠ some t.name) := by
      rintro _ rfl e2 he2
      rcases List.mem_map.mp he2 with ⟨e, _, rfl⟩
      by_cases hc : e.tag = some t.name
      · simp [hc]
      · simp [hc]
    have htags : ∀ t2 ∈ db.tags.filter (fun x => decide (x.id ≠ tag_id)), t2.id ≠ tag_id := by
      intro t2 ht2
      have := (List.mem_filter.mp ht2).2
      simpa using this
    unfold delete_tag
    simp only [hfind]
    by_cases hc : 0 < (db.events.filter (fun e => decide (e.tag = some t.name))).length
    · rw [if_pos hc]
      refine ⟨_, rfl, rfl, hmap _ rfl, ?_⟩
      intro t2 ht2
      unfold get_all_tags at ht2
      exact htags t2 ((List.mem_insertionSort _).mp ht2)
    · rw [if_neg hc]
      have hzero : (db.events.filter (fun e => decide (e.tag = some t.name))).length = 0 :=
        Nat.eq_zero_of_not_pos hc
      have hnone : ∀ e ∈ db.events, e.tag ≠ some t.name := by
        intro e he
        have := List.filter_eq_nil_iff.mp (List.length_eq_zero.mp hzero) e he
        simpa using this
      have hidmap : db.events.map (fun e =>
          if e.tag = some t.name then { e with tag := none } else e) = db.events :=
        calc db.events.map (fun e =>
              if e.tag = some t.name then { e with tag := none } else e)
            = db.events.map id :=
              List.map_congr_left (fun e he => by simp [hnone e he])
          _ = db.events := List.map_id _
      refine ⟨_, rfl, hidmap.symm, hnone, ?_⟩
      intro t2 ht2
      unfold get_all_tags at ht2
      exact htags t2 ((List.mem_insertionSort _).mp ht2)
  · intro hno
    unfold delete_tag
    rw [find_tag_by_id_none hno]

/- ===================== Claim C9 ===================== -/

/-- The stored payload of an event row, without the store-assigned id and
created_at. -/
def eventData (e : Event) : DT × DT × String × Option String × Option String :=
  (e.start_datetime, e.end_datetime, e.title, e.description, e.tag)

/-- The payload bulk_add_events builds from a record that passed the
both-datetimes validation. -/
def recData (tag : String) (r : BulkRecord) :
    DT × DT × String × Option String × Option String :=
  (r.start_datetime.getD ⟨0, 0⟩, r.end_datetime.getD ⟨0, 0⟩,
   r.title.getD "(no title)", some (r.description.getD ""), some tag)

lemma bulk_fold_count (tag : String) (evs : List BulkRecord) :
    ∀ (db : DB) (n : Nat),
      (evs.foldl (bulk_step tag) (db, n)).2 =
        n + (evs.filter (fun r => r.start_datetime.isSome && r.end_datetime.isSome)).length := by
  induction evs with
  | nil =>
    intro db n
    simp
  | cons r rest ih =>
    intro db n
    cases hs : r.start_datetime with
    | none =>
      simp only [List.foldl_cons, bulk_step, hs, List.filter_cons]
      rw [ih]
      simp [hs]
    | some s =>
      cases he : r.end_datetime with
      | none =>
        simp only [List.foldl_cons, bulk_step, hs, he, List.filter_cons]
        rw [ih]
        simp [hs, he]
      | some en =>
        simp only [List.foldl_cons, bulk_step, hs, he, List.filter_cons]
        rw [ih]
        simp only [hs, he, Option.isSome_some, Bool.and_self, if_true]
        simp
        omega

lemma bulk_fold_events (tag : String) (evs : List BulkRecord) :
    ∀ (db : DB) (n : Nat),
      (evs.foldl (bulk_step tag) (db, n)).1.events.map eventData =
        db.events.map eventData ++
          (evs.filter (fun r => r.start_datetime.isSome && r.end_datetime.isSome)).map
            (recData tag) := by
  induction evs with
  | nil =>
    intro db n
    simp
  | cons r rest ih =>
    intro db n
    cases hs : r.start_datetime with
    | none =>
      simp only [List.foldl_cons, bulk_step, hs, List.filter_cons]
      rw [ih]
      simp [hs]
    | some s =>
      cases he : r.end_datetime with
      | none =>
        simp only [List.foldl_cons, bulk_step, hs, he, List.filter_cons]
        rw [ih]
        simp [hs, he]
      | some en =>
        simp only [List.foldl_cons, bulk_step, hs, he, List.filter_cons]
        rw [ih]
        simp only [hs, he, Option.isSome_some, Bool.and_self, if_true]
        simp [eventData, recData, hs, he]

lemma bulk_fold_tag (tag : String) (evs : List BulkRecord) :
    ∀ (db : DB) (n : Nat) (e2 : Event),
      e2 ∈ (evs.foldl (bulk_step tag) (db, n)).1.events →
        e2 ∈ db.events ∨ e2.tag = some tag := by
  induction evs with
  | nil =>
    intro db n e2 h
    exact Or.inl h
  | cons r rest ih =>
    intro db n e2 h
    cases hs : r.start_datetime with
    | none =>
      rw [List.foldl_cons] at h
      simp only [bulk_step, hs] at h
      exact ih db n e2 h
    | some s =>
      cases he : r.end_datetime with
      | none =>
        rw [List.foldl_cons] at h
        simp only [bulk_step, hs, he] at h
        exact ih db n e2 h
      | some en =>
        rw [List.foldl_cons] at h
        simp only [bulk_step, hs, he] at h
        rcases ih _ _ e2 h with hmem | htag
        · rcases List.mem_append.mp hmem with hmem2 | hmem2
          · exact Or.inl hmem2
          · right
            rcases List.mem_singleton.mp hmem2 with rfl
            rfl
        · exact Or.inr htag

/-- The 3-valid-plus-1-invalid input of the C9 example. -/
def demoBulk : List BulkRecord :=
  [ { title := some "a", description := some "", start_datetime := some ⟨739343, 36000⟩,
      end_datetime := some ⟨739343, 39600⟩ },
    { title := some "b", description := none, start_datetime := some ⟨739343, 40000⟩,
      end_datetime := some ⟨739343, 41000⟩ },
    { title := none, description := none, start_datetime := some ⟨739344, 0⟩,
      end_datetime := some ⟨739344, 3600⟩ },
    { title := some "d", description := some "", start_datetime := some ⟨739345, 0⟩,
      end_datetime := none } ]

/-- Claim C9: bulk_add_events inserts exactly one row per record that has
both datetimes, with the expected payload, in input order after the existing
rows, and returns the number inserted; records missing either datetime are
skipped without error and without being counted.  In particular 3 valid
records and 1 record missing end_datetime insert 3 rows and return 3. -/
theorem bulk_add_events_inserts_valid (db : DB) (evs : List BulkRecord) (tag : String) :
    (bulk_add_events db evs tag).2 =
      (evs.filter (fun r => r.start_datetime.isSome && r.end_datetime.isSome)).length ∧
    (bulk_add_events db evs tag).1.events.map eventData =
      db.events.map eventData ++
        (evs.filter (fun r => r.start_datetime.isSome && r.end_datetime.isSome)).map
          (recData tag) ∧
    (bulk_add_events db evs tag).1.events.length =
      db.events.length +
        (evs.filter (fun r => r.start_datetime.isSome && r.end_datetime.isSome)).length ∧
    (bulk_add_events emptyDB demoBulk "T").2 = 3 ∧
    (bulk_add_events emptyDB demoBulk "T").1.events.length = 3 := by
  have hcount := bulk_fold_count tag evs db 0
  have hevents := bulk_fold_events tag evs db 0
  refine ⟨by simpa [bulk_add_events] using hcount, by simpa [bulk_add_events] using hevents, ?_, by decide, by decide⟩
  have hlen := congrArg List.length hevents
  simpa [bulk_add_events, List.length_append] using hlen

/- ===================== Claim C10 ===================== -/

lemma applyEventDay_congr {e1 e2 : Event} (hs : e1.start_datetime = e2.start_datetime)
    (he : e1.end_datetime = e2.end_datetime) (ht : tagOf e1 = tagOf e2) :
    applyEventDay e1 = applyEventDay e2 := by
  funext acc d
  unfold applyEventDay updateDay durHours Event.startUs Event.endUs
  rw [hs, he, ht]

lemma get_tag_hours_singleton_congr (db : DB) (e1 e2 : Event) (sd ed : Int)
    (hs : e1.start_datetime = e2.start_datetime)
    (he : e1.end_datetime = e2.end_datetime) (ht : tagOf e1 = tagOf e2) :
    get_tag_hours_for_week { db with events := [e1] } sd ed =
      get_tag_hours_for_week { db with events := [e2] } sd ed := by
  have hAD := applyEventDay_congr hs he ht
  simp only [get_tag_hours_for_week, List.filter_cons, List.filter_nil]
  rw [← hs, ← he]
  by_cases hcond : (e1.start_datetime.day < ed ∧ sd ≤ e1.end_datetime.day)
  · rw [if_pos (decide_eq_true hcond), if_pos (decide_eq_true hcond)]
    simp only [List.insertionSort, List.orderedInsert, List.foldl_cons, List.foldl_nil]
    rw [hAD]
  · rw [if_neg (fun hh => hcond (of_decide_eq_true hh)),
      if_neg (fun hh => hcond (of_decide_eq_true hh))]

/-- Claim C10: add_event, update_event and bulk_add_events with the tag
argument omitted store the empty string, not NULL; the aggregation buckets an
event under the Untagged placeholder whenever its tag is NULL or the empty
string, so the two are indistinguishable in its output. -/
theorem omitted_tag_stores_empty_string (db : DB) (s en : DT) (ti : String)
    (eid : Int) (evs : List BulkRecord) (e : Event) (sd ed : Int) :
    (add_event db s en ti).1.events.getLast? =
      some { id := db.next_event_id, start_datetime := s, end_datetime := en,
             title := ti, description := some "", tag := some "",
             created_at := db.now } ∧
    (∀ e2 ∈ (update_event db eid s en ti).events, e2.id = eid → e2.tag = some "") ∧
    (∀ e2 ∈ (bulk_add_events db evs).1.events, e2 ∉ db.events → e2.tag = some "") ∧
    (e.tag = none ∨ e.tag = some "" → tagOf e = "Untagged") ∧
    get_tag_hours_for_week { db with events := [{ e with tag := some "" }] } sd ed =
      get_tag_hours_for_week { db with events := [{ e with tag := none }] } sd ed := by
  refine ⟨?_, ?_, ?_, ?_, ?_⟩
  · unfold add_event
    rw [List.getLast?_append_cons]
    rfl
  · intro e2 he2 hid
    rcases List.mem_map.mp he2 with ⟨x, _, rfl⟩
    by_cases hxid : x.id = eid
    · simp [hxid]
    · simp only [if_neg hxid] at hid ⊢
      exact absurd hid hxid
  · intro e2 he2 hnot
    exact (bulk_fold_tag "" evs db 0 e2 he2).resolve_left hnot
  · rintro (h | h)
    · simp [tagOf, h]
    · simp [tagOf, h]
  · exact get_tag_hours_singleton_congr db _ _ sd ed rfl rfl (by simp [tagOf])

/-- Witness for C10: add_event with tag omitted stores the empty string, and
an event whose tag is the empty string is bucketed as Untagged. -/
theorem omitted_tag_stores_empty_string_witness :
    (add_event emptyDB ⟨739343, 36000⟩ ⟨739343, 39600⟩ "t").1.events.getLast? =
      some { id := 1, start_datetime := ⟨739343, 36000⟩, end_datetime := ⟨739343, 39600⟩,
             title := "t", description := some "", tag := some "", created_at := 0 } ∧
    tagOf { id := 1, start_datetime := ⟨739343, 36000⟩, end_datetime := ⟨739343, 39600⟩,
            title := "t", description := some "", tag := some "", created_at := 0 } =
      "Untagged" := by
  have h := omitted_tag_stores_empty_string emptyDB ⟨739343, 36000⟩ ⟨739343, 39600⟩ "t" 1
    demoBulk
    { id := 1, start_datetime := ⟨739343, 36000⟩, end_datetime := ⟨739343, 39600⟩,
      title := "t", description := some "", tag := some "", created_at := 0 }
    739343 739350
  exact ⟨h.1, h.2.2.2.1 (Or.inr rfl)⟩

/- ===================== Claim C4 ===================== -/

/-- Claim C4: for a well-formed event with start before end that is stored,
get_events_by_date D returns it exactly when the interval touches calendar
day D, that is when start day <= D <= end day, and the result is ordered by
start_datetime ascending. -/
theorem get_events_by_date_touches (db : DB) (e : Event) (D : Int)
    (hmem : e ∈ db.events)
    (hv1 : e.start_datetime.Valid) (hv2 : e.end_datetime.Valid)
    (hlt : e.start_datetime.toSec < e.end_datetime.toSec) :
    (e ∈ get_events_by_date db D ↔
      (e.start_datetime.day ≤ D ∧ D ≤ e.end_datetime.day)) ∧
    List.Sorted (fun a b => a.start_datetime.toSec ≤ b.start_datetime.toSec)
      (get_events_by_date db D) := by
  obtain ⟨hs0, hs1⟩ := hv1
  obtain ⟨he0, he1⟩ := hv2
  unfold DT.toSec at hlt
  constructor
  · simp only [get_events_by_date]
    rw [List.mem_insertionSort, List.mem_filter]
    constructor
    · rintro ⟨-, hcond⟩
      have hcond2 := of_decide_eq_true hcond
      unfold DT.toSec at hcond2
      rcases hcond2 with ⟨h1, h2⟩ | h | h <;> constructor <;> omega
    · rintro ⟨hds, hde⟩
      refine ⟨hmem, decide_eq_true ?_⟩
      unfold DT.toSec
      exact Or.inl ⟨by omega, by omega⟩
  · simp only [get_events_by_date]
    exact List.sorted_insertionSort _ _

/-- Witness for C4 at the concrete three-event state: event 10 is returned
for its own day, and the listing is sorted by start_datetime. -/
theorem get_events_by_date_touches_witness :
    (({ id := 10, start_datetime := ⟨739343, 36000⟩, end_datetime := ⟨739343, 43200⟩,
        title := "x", description := some "", tag := some "A", created_at := 0 } : Event) ∈
        get_events_by_date dbTagged 739343 ↔
      ((739343 : Int) ≤ 739343 ∧ (739343 : Int) ≤ 739343)) ∧
    List.Sorted (fun a b => a.start_datetime.toSec ≤ b.start_datetime.toSec)
      (get_events_by_date dbTagged 739343) :=
  get_events_by_date_touches dbTagged
    { id := 10, start_datetime := ⟨739343, 36000⟩, end_datetime := ⟨739343, 43200⟩,
      title := "x", description := some "", tag := some "A", created_at := 0 }
    739343 (by decide) (by decide) (by decide) (by decide)

/- ===================== Claim C2: fold lemmas ===================== -/

/-- The effect of one day-loop iteration on the bucket map of that day. -/
def dayUpd (e : Event) (d : Int) (m : List (String × ℚ)) : List (String × ℚ) :=
  if e.startUs ≤ dayEndUs d ∧ dayStartUs d ≤ e.endUs then
    bucketAdd m (tagOf e) (durHours e d)
  else m

lemma alookup_updateDay_ne {acc : List (Int × List (String × ℚ))} {d k : Int}
    {tg : String} {h : ℚ} (hne : k ≠ d) :
    alookup k (updateDay acc d tg h) = alookup k acc := by
  induction acc with
  | nil => rfl
  | cons p rest ih =>
    unfold updateDay at ih ⊢
    simp only [List.map_cons]
    by_cases hpd : p.1 = d
    · rw [if_pos hpd]
      have hpk : ¬ (p.1 = k) := by
        rw [hpd]
        exact fun hh => hne hh.symm
      simp only [alookup]
      rw [if_neg hpk, if_neg hpk]
      exact ih
    · rw [if_neg hpd]
      by_cases hpk : p.1 = k
      · simp only [alookup]
        rw [if_pos hpk, if_pos hpk]
      · simp only [alookup]
        rw [if_neg hpk, if_neg hpk]
        exact ih

lemma alookup_updateDay_self {acc : List (Int × List (String × ℚ))} {d : Int}
    {tg : String} {h : ℚ} :
    alookup d (updateDay acc d tg h) =
      (alookup d acc).map (fun m => bucketAdd m tg h) := by
  induction acc with
  | nil => rfl
  | cons p rest ih =>
    unfold updateDay at ih ⊢
    simp only [List.map_cons]
    by_cases hpd : p.1 = d
    · rw [if_pos hpd]
      simp only [alookup]
      rw [if_pos hpd, if_pos hpd]
      rfl
    · rw [if_neg hpd]
      simp only [alookup]
      rw [if_neg hpd, if_neg hpd]
      exact ih

lemma alookup_applyEventDay_ne {e : Event} {acc : List (Int × List (String × ℚ))}
    {d k : Int} (hne : k ≠ d) :
    alookup k (applyEventDay e acc d) = alookup k acc := by
  unfold applyEventDay
  by_cases hc : (e.startUs ≤ dayEndUs d ∧ dayStartUs d ≤ e.endUs)
  · rw [if_pos hc]
    exact alookup_updateDay_ne hne
  · rw [if_neg hc]

lemma alookup_applyEventDay_self {e : Event} {acc : List (Int × List (String × ℚ))}
    {d : Int} :
    alookup d (applyEventDay e acc d) = (alookup d acc).map (dayUpd e d) := by
  unfold applyEventDay dayUpd
  by_cases hc : (e.startUs ≤ dayEndUs d ∧ dayStartUs d ≤ e.endUs)
  · rw [if_pos hc]
    rw [alookup_updateDay_self]
    simp [hc]
  · rw [if_neg hc]
    simp [hc]

lemma alookup_dayfold_not_mem (e : Event) (ds : List Int) :
    ∀ (acc : List (Int × List (String × ℚ))) (d : Int), d ∉ ds →
      alookup d (ds.foldl (fun a x => applyEventDay e a x) acc) = alookup d acc := by
  induction ds with
  | nil =>
    intro acc d _
    rfl
  | cons x rest ih =>
    intro acc d hd
    rw [List.foldl_cons]
    have hdx : d ≠ x := fun hh => hd (hh ▸ List.mem_cons_self x rest)
    have hdrest : d ∉ rest := fun hh => hd (List.mem_cons_of_mem x hh)
    rw [ih _ d hdrest]
    exact alookup_applyEventDay_ne hdx

lemma alookup_dayfold_mem (e : Event) (ds : List Int) :
    ∀ (acc : List (Int × List (String × ℚ))) (d : Int), ds.Nodup → d ∈ ds →
      alookup d (ds.foldl (fun a x => applyEventDay e a x) acc) =
        (alookup d acc).map (dayUpd e d) := by
  induction ds with
  | nil =>
    intro acc d _ hd
    cases hd
  | cons x rest ih =>
    intro acc d hnd hd
    rw [List.foldl_cons]
    rw [List.nodup_cons] at hnd
    rcases List.mem_cons.mp hd with rfl | hdrest
    · rw [alookup_dayfold_not_mem e rest _ d hnd.1]
      exact alookup_applyEventDay_self
    · have hdx : d ≠ x := fun hh => hnd.1 (hh ▸ hdrest)
      rw [ih _ d hnd.2 hdrest]
      rw [alookup_applyEventDay_ne hdx]

lemma alookup_init (L : List Int) (d : Int) :
    alookup d (L.map (fun x => (x, ([] : List (String × ℚ))))) =
      if d ∈ L then some [] else none := by
  induction L with
  | nil => rfl
  | cons x rest ih =>
    simp only [List.map_cons, alookup]
    by_cases hxd : x = d
    · rw [if_pos hxd]
      rw [if_pos (hxd ▸ List.mem_cons_self x rest)]
    · rw [if_neg hxd]
      rw [ih]
      by_cases hdr : d ∈ rest
      · rw [if_pos hdr, if_pos (List.mem_cons_of_mem x hdr)]
      · rw [if_neg hdr, if_neg]
        intro hh
        rcases List.mem_cons.mp hh with hh2 | hh2
        · exact hxd hh2.symm
        · exact hdr hh2

lemma mem_daysInRange {s e d : Int} : d ∈ daysInRange s e ↔ s ≤ d ∧ d < e := by
  unfold daysInRange
  simp only [List.mem_map, List.mem_range]
  constructor
  · rintro ⟨i, hi, rfl⟩
    omega
  · rintro ⟨h1, h2⟩
    refine ⟨(d - s).toNat, ?_, ?_⟩ <;> omega

lemma nodup_daysInRange (s e : Int) : (daysInRange s e).Nodup :=
  List.Nodup.map (fun a b hab => by omega) (List.nodup_range _)

lemma usToHours (x : Int) :
    ((x * 1000000 : Int) : ℚ) / 3600000000 = ((x : Int) : ℚ) / 3600 := by
  push_cast
  rw [div_eq_div_iff (by norm_num) (by norm_num)]
  ring

/-- On a single-event table selected by the week filter, the aggregation is
the plain day fold over that event starting from the empty per-day buckets. -/
lemma get_tag_hours_singleton (e : Event) (sd ed : Int) (db : DB)
    (hdb : db.events = [e])
    (hsel : e.start_datetime.day < ed ∧ sd ≤ e.end_datetime.day) :
    get_tag_hours_for_week db sd ed =
      (daysInRange sd ed).foldl (fun a d => applyEventDay e a d)
        ((daysInRange sd ed).map (fun d => (d, ([] : List (String × ℚ))))) := by
  simp only [get_tag_hours_for_week, hdb, List.filter_cons, List.filter_nil]
  rw [if_pos (decide_eq_true hsel)]
  simp only [List.insertionSort, List.orderedInsert, List.foldl_cons, List.foldl_nil]

/-- Claim C2 (amended): on a single stored well-formed event with start
before end lying inside the queried range, get_tag_hours_for_week assigns to
an event contained in one calendar day exactly its wall-clock duration in
hours on that day and nothing to any other day; an event spanning midnight is
split between the two adjacent days, the first part clipped at 23:59:59.999999
and the second starting at 00:00:00, so the two parts sum to the total
duration minus exactly one microsecond (1/3600000000 hours), not to the total
duration. -/
theorem get_tag_hours_clips_to_days (db : DB) (e : Event) (sd ed : Int)
    (hdb : db.events = [e])
    (hv1 : e.start_datetime.Valid) (hv2 : e.end_datetime.Valid)
    (hlt : e.start_datetime.toSec < e.end_datetime.toSec) :
    (e.end_datetime.day = e.start_datetime.day → sd ≤ e.start_datetime.day →
      e.start_datetime.day < ed →
      lookupHours (get_tag_hours_for_week db sd ed) e.start_datetime.day (tagOf e) =
        some (((e.end_datetime.toSec - e.start_datetime.toSec : Int) : ℚ) / 3600) ∧
      (∀ d2, d2 ≠ e.start_datetime.day → ∀ tg,
        lookupHours (get_tag_hours_for_week db sd ed) d2 tg = none)) ∧
    (e.end_datetime.day = e.start_datetime.day + 1 → sd ≤ e.start_datetime.day →
      e.end_datetime.day < ed →
      lookupHours (get_tag_hours_for_week db sd ed) e.start_datetime.day (tagOf e) =
        some ((86399999999 - (e.start_datetime.sec : ℚ) * 1000000) / 3600000000) ∧
      lookupHours (get_tag_hours_for_week db sd ed) e.end_datetime.day (tagOf e) =
        some ((e.end_datetime.sec : ℚ) / 3600) ∧
      ((86399999999 - (e.start_datetime.sec : ℚ) * 1000000) / 3600000000) +
          ((e.end_datetime.sec : ℚ) / 3600) =
        ((e.end_datetime.toSec - e.start_datetime.toSec : Int) : ℚ) / 3600 -
          1 / 3600000000) := by
  obtain ⟨hs0, hs1⟩ := hv1
  obtain ⟨he0, he1⟩ := hv2
  unfold DT.toSec at hlt
  constructor
  · -- one-day case
    intro hday hsd hed
    have hsel : e.start_datetime.day < ed ∧ sd ≤ e.end_datetime.day := by
      constructor
      · exact hed
      · rw [hday]
        exact hsd
    rw [get_tag_hours_singleton e sd ed db hdb hsel]
    have hmemday : e.start_datetime.day ∈ daysInRange sd ed :=
      mem_daysInRange.mpr ⟨hsd, hed⟩
    have htest : e.startUs ≤ dayEndUs e.start_datetime.day ∧
        dayStartUs e.start_datetime.day ≤ e.endUs := by
      unfold Event.startUs Event.endUs dayEndUs dayStartUs usPerDay DT.toSec
      constructor <;> omega
    constructor
    · unfold lookupHours
      rw [alookup_dayfold_mem e _ _ _ (nodup_daysInRange sd ed) hmemday]
      rw [alookup_init, if_pos hmemday]
      simp only [Option.map_some', Option.some_bind]
      unfold dayUpd
      rw [if_pos htest]
      simp only [bucketAdd, alookup]
      rw [if_pos trivial]
      refine congrArg some ?_
      unfold durHours
      have hmin : e.endUs ≤ dayEndUs e.start_datetime.day := by
        unfold Event.endUs dayEndUs usPerDay DT.toSec
        omega
      have hmax : dayStartUs e.start_datetime.day ≤ e.startUs := by
        unfold Event.startUs dayStartUs usPerDay DT.toSec
        omega
      rw [min_eq_left hmin, max_eq_left hmax]
      have hfac : e.endUs - e.startUs =
          (e.end_datetime.toSec - e.start_datetime.toSec) * 1000000 := by
        unfold Event.endUs Event.startUs
        ring
      rw [hfac, usToHours]
    · intro d2 hne tg
      unfold lookupHours
      by_cases hd2 : d2 ∈ daysInRange sd ed
      · rw [alookup_dayfold_mem e _ _ _ (nodup_daysInRange sd ed) hd2]
        rw [alookup_init, if_pos hd2]
        simp only [Option.map_some', Option.some_bind]
        unfold dayUpd
        have hno : ¬ (e.startUs ≤ dayEndUs d2 ∧ dayStartUs d2 ≤ e.endUs) := by
          rintro ⟨h1, h2⟩
          apply hne
          unfold Event.startUs dayEndUs at h1
          unfold Event.endUs dayStartUs at h2
          unfold usPerDay DT.toSec at h1 h2
          omega
        rw [if_neg hno]
        rfl
      · rw [alookup_dayfold_not_mem e _ _ _ hd2]
        rw [alookup_init, if_neg hd2]
        rfl
  · -- midnight-spanning case
    intro hB hsd hBed
    have hstartlt : e.start_datetime.day < ed := by omega
    have hsel : e.start_datetime.day < ed ∧ sd ≤ e.end_datetime.day :=
      ⟨hstartlt, by omega⟩
    rw [get_tag_hours_singleton e sd ed db hdb hsel]
    have hmem1 : e.start_datetime.day ∈ daysInRange sd ed :=
      mem_daysInRange.mpr ⟨hsd, hstartlt⟩
    have hmem2 : e.end_datetime.day ∈ daysInRange sd ed :=
      mem_daysInRange.mpr ⟨by omega, hBed⟩
    have htest1 : e.startUs ≤ dayEndUs e.start_datetime.day ∧
        dayStartUs e.start_datetime.day ≤ e.endUs := by
      unfold Event.startUs Event.endUs dayEndUs dayStartUs usPerDay DT.toSec
      constructor <;> omega
    have htest2 : e.startUs ≤ dayEndUs e.end_datetime.day ∧
        dayStartUs e.end_datetime.day ≤ e.endUs := by
      unfold Event.startUs Event.endUs dayEndUs dayStartUs usPerDay DT.toSec
      constructor <;> omega
    refine ⟨?_, ?_, ?_⟩
    · unfold lookupHours
      rw [alookup_dayfold_mem e _ _ _ (nodup_daysInRange sd ed) hmem1]
      rw [alookup_init, if_pos hmem1]
      simp only [Option.map_some', Option.some_bind]
      unfold dayUpd
      rw [if_pos htest1]
      simp only [bucketAdd, alookup]
      rw [if_pos trivial]
      refine congrArg some ?_
      unfold durHours
      have hminr : dayEndUs e.start_datetime.day ≤ e.endUs := by
        unfold Event.endUs dayEndUs usPerDay DT.toSec
        omega
      have hmax : dayStartUs e.start_datetime.day ≤ e.startUs := by
        unfold Event.startUs dayStartUs usPerDay DT.toSec
        omega
      rw [min_eq_right hminr, max_eq_left hmax]
      unfold dayEndUs Event.startUs usPerDay DT.toSec
      have hfac : e.start_datetime.day * 86400000000 + 86399999999 -
          (e.start_datetime.day * 86400 + e.start_datetime.sec) * 1000000 =
          86399999999 - e.start_datetime.sec * 1000000 := by
        ring
      rw [hfac]
      push_cast
      ring
    · unfold lookupHours
      rw [alookup_dayfold_mem e _ _ _ (nodup_daysInRange sd ed) hmem2]
      rw [alookup_init, if_pos hmem2]
      simp only [Option.map_some', Option.some_bind]
      unfold dayUpd
      rw [if_pos htest2]
      simp only [bucketAdd, alookup]
      rw [if_pos trivial]
      refine congrArg some ?_
      unfold durHours
      have hminl : e.endUs ≤ dayEndUs e.end_datetime.day := by
        unfold Event.endUs dayEndUs usPerDay DT.toSec
        omega
      have hmaxr : e.startUs ≤ dayStartUs e.end_datetime.day := by
        unfold Event.startUs dayStartUs usPerDay DT.toSec
        omega
      rw [min_eq_left hminl, max_eq_right hmaxr]
      unfold dayStartUs Event.endUs usPerDay DT.toSec
      have hfac : (e.end_datetime.day * 86400 + e.end_datetime.sec) * 1000000 -
          e.end_datetime.day * 86400000000 = e.end_datetime.sec * 1000000 := by
        ring
      rw [hfac, usToHours]
    · have htot : e.end_datetime.toSec - e.start_datetime.toSec =
          86400 + e.end_datetime.sec - e.start_datetime.sec := by
        unfold DT.toSec
        rw [hB]
        ring
      rw [htot]
      push_cast
      field_simp
      ring


/- ===================== Concrete states for C1 and C2 ===================== -/

/-- The two-event table of the C1 example: Work 2024-06-01 10:00-12:00 and
Work 2024-06-01 11:00-13:00. -/
def dbC1 : DB :=
  { events :=
      [ { id := 1, start_datetime := mkDT (civilDay 2024 6 1) 10 0 0,
          end_datetime := mkDT (civilDay 2024 6 1) 12 0 0,
          title := "a", description := some "", tag := some "Work", created_at := 0 },
        { id := 2, start_datetime := mkDT (civilDay 2024 6 1) 11 0 0,
          end_datetime := mkDT (civilDay 2024 6 1) 13 0 0,
          title := "b", description := some "", tag := some "Work", created_at := 0 } ],
    tags := [], next_event_id := 3, next_tag_id := 1, now := 0 }

/-- A single Work event 2024-06-01 10:00-12:00, fully inside one day. -/
def eventOneDay : Event :=
  { id := 1, start_datetime := mkDT (civilDay 2024 6 1) 10 0 0,
    end_datetime := mkDT (civilDay 2024 6 1) 12 0 0,
    title := "w", description := some "", tag := some "Work", created_at := 0 }

/-- A single Work event 2024-06-01 23:00 to 2024-06-02 01:00, spanning
midnight. -/
def eventMidnight : Event :=
  { id := 1, start_datetime := mkDT (civilDay 2024 6 1) 23 0 0,
    end_datetime := mkDT (civilDay 2024 6 2) 1 0 0,
    title := "n", description := some "", tag := some "Work", created_at := 0 }

/-- Table holding only eventOneDay. -/
def dbC2A : DB :=
  { events := [eventOneDay], tags := [], next_event_id := 2, next_tag_id := 1, now := 0 }

/-- Table holding only eventMidnight. -/
def dbC2B : DB :=
  { events := [eventMidnight], tags := [], next_event_id := 2, next_tag_id := 1, now := 0 }

lemma dbC1_eval :
    lookupHours (get_tag_hours_for_week dbC1 (civilDay 2024 5 27) (civilDay 2024 6 3))
      (civilDay 2024 6 1) "Work" = some 4 := by
  norm_num [dbC1, get_tag_hours_for_week, daysInRange, applyEventDay, updateDay, bucketAdd,
    durHours, tagOf, lookupHours, alookup, DT.toSec, mkDT, civilDay, Event.startUs,
    Event.endUs, dayStartUs, dayEndUs, usPerDay, min_def, max_def, List.insertionSort,
    List.orderedInsert, List.foldl, List.filter_cons, List.range, List.range.loop,
    List.map, String.reduceEq, reduceIte]
  all_goals intro h
  all_goals exact absurd h (by decide)

lemma dbC2B_eval1 :
    lookupHours (get_tag_hours_for_week dbC2B (civilDay 2024 5 27) (civilDay 2024 6 3))
      (civilDay 2024 6 1) "Work" = some (3599999999 / 3600000000) := by
  norm_num [dbC2B, eventMidnight, get_tag_hours_for_week, daysInRange, applyEventDay,
    updateDay, bucketAdd, durHours, tagOf, lookupHours, alookup, DT.toSec, mkDT, civilDay,
    Event.startUs, Event.endUs, dayStartUs, dayEndUs, usPerDay, min_def, max_def,
    List.insertionSort, List.orderedInsert, List.foldl, List.filter_cons, List.range,
    List.range.loop, List.map, String.reduceEq, reduceIte]
  all_goals intro h
  all_goals exact absurd h (by decide)

lemma dbC2B_eval2 :
    lookupHours (get_tag_hours_for_week dbC2B (civilDay 2024 5 27) (civilDay 2024 6 3))
      (civilDay 2024 6 2) "Work" = some 1 := by
  norm_num [dbC2B, eventMidnight, get_tag_hours_for_week, daysInRange, applyEventDay,
    updateDay, bucketAdd, durHours, tagOf, lookupHours, alookup, DT.toSec, mkDT, civilDay,
    Event.startUs, Event.endUs, dayStartUs, dayEndUs, usPerDay, min_def, max_def,
    List.insertionSort, List.orderedInsert, List.foldl, List.filter_cons, List.range,
    List.range.loop, List.map, String.reduceEq, reduceIte]
  all_goals intro h
  all_goals exact absurd h (by decide)

/- ===================== Claim C1 ===================== -/

/-- Counterexample to C1 as stated: with the two overlapping 2-hour Work
events of 2024-06-01, the aggregation for a week containing that date does
not report 3.0 hours for Work on 2024-06-01 — each event contributes its full
2 hours and the 11:00-12:00 overlap is counted twice. -/
theorem week_hours_example_counterexample :
    lookupHours (get_tag_hours_for_week dbC1 (civilDay 2024 5 27) (civilDay 2024 6 3))
      (civilDay 2024 6 1) "Work" ≠ some 3 := by
  rw [dbC1_eval]
  intro hcontra
  have h4 := Option.some.inj hcontra
  norm_num at h4

/-- Claim C1 (amended): for the two events ("2024-06-01 10:00:00",
"2024-06-01 12:00:00", Work) and ("2024-06-01 11:00:00",
"2024-06-01 13:00:00", Work) and no other events, get_tag_hours_for_week
over a week containing 2024-06-01 reports 4.0 hours for Work on 2024-06-01:
overlap is counted twice, so the two 2-hour events sum to 4.0, not 3.0. -/
theorem week_hours_example :
    lookupHours (get_tag_hours_for_week dbC1 (civilDay 2024 5 27) (civilDay 2024 6 3))
      (civilDay 2024 6 1) "Work" = some 4 :=
  dbC1_eval

/- ===================== Claim C2: counterexample and witness ============== -/

/-- Counterexample to C2 as stated: the Work event from 2024-06-01 23:00:00
to 2024-06-02 01:00:00 lasts exactly 2 hours, but the two day parts produced
by get_tag_hours_for_week sum to 7199999999/3600000000, one microsecond short
of 2, because the first day is clipped at 23:59:59.999999. -/
theorem midnight_split_counterexample :
    ((eventMidnight.end_datetime.toSec - eventMidnight.start_datetime.toSec : Int) : ℚ) /
        3600 = 2 ∧
    (lookupHours (get_tag_hours_for_week dbC2B (civilDay 2024 5 27) (civilDay 2024 6 3))
          (civilDay 2024 6 1) "Work").getD 0 +
        (lookupHours (get_tag_hours_for_week dbC2B (civilDay 2024 5 27) (civilDay 2024 6 3))
          (civilDay 2024 6 2) "Work").getD 0 ≠ 2 := by
  constructor
  · norm_num [eventMidnight, mkDT, DT.toSec, civilDay]
  · rw [dbC2B_eval1, dbC2B_eval2]
    norm_num

/-- Witness for the amended C2: the one-day event yields exactly 2.0 on its
day, and the midnight event splits into 3599999999/3600000000 plus 1. -/
theorem get_tag_hours_clips_to_days_witness :
    lookupHours (get_tag_hours_for_week dbC2A (civilDay 2024 5 27) (civilDay 2024 6 3))
        (civilDay 2024 6 1) "Work" = some 2 ∧
    lookupHours (get_tag_hours_for_week dbC2B (civilDay 2024 5 27) (civilDay 2024 6 3))
        (civilDay 2024 6 1) "Work" = some (3599999999 / 3600000000) ∧
    lookupHours (get_tag_hours_for_week dbC2B (civilDay 2024 5 27) (civilDay 2024 6 3))
        (civilDay 2024 6 2) "Work" = some 1 := by
  have hA := (get_tag_hours_clips_to_days dbC2A eventOneDay
    (civilDay 2024 5 27) (civilDay 2024 6 3) rfl (by decide) (by decide) (by decide)).1
    (by decide) (by decide) (by decide)
  have hB := (get_tag_hours_clips_to_days dbC2B eventMidnight
    (civilDay 2024 5 27) (civilDay 2024 6 3) rfl (by decide) (by decide) (by decide)).2
    (by decide) (by decide) (by decide)
  have hAd : eventOneDay.start_datetime.day = civilDay 2024 6 1 := rfl
  have hAt : tagOf eventOneDay = "Work" := by decide
  have hBd1 : eventMidnight.start_datetime.day = civilDay 2024 6 1 := rfl
  have hBd2 : eventMidnight.end_datetime.day = civilDay 2024 6 2 := rfl
  have hBt : tagOf eventMidnight = "Work" := by decide
  rw [hAd, hAt] at hA
  rw [hBd1, hBd2, hBt] at hB
  refine ⟨?_, ?_, ?_⟩
  · rw [hA.1]
    norm_num [eventOneDay, mkDT, DT.toSec, civilDay]
  · rw [hB.1]
    norm_num [eventMidnight, mkDT]
  · rw [hB.2.1]
    norm_num [eventMidnight, mkDT]

/-- Witness for C5: deleting tag A (id 1, referenced by exactly 2 events)
returns event_count 2 and detaches those events; deleting the unknown id 99
returns the failure result with the state untouched. -/
theorem delete_tag_detaches_events_witness :
    (∃ db2, delete_tag dbTagged 1 =
        (db2, DeleteTagResult.deleted
          (dbTagged.events.filter (fun e => decide (e.tag = some "A"))).length) ∧
      db2.events = dbTagged.events.map (fun e =>
        if e.tag = some "A" then { e with tag := none } else e) ∧
      (∀ e ∈ db2.events, e.tag ≠ some "A") ∧
      (∀ t2 ∈ get_all_tags db2, t2.id ≠ 1)) ∧
    delete_tag dbTagged 99 = (dbTagged, DeleteTagResult.notFound) ∧
    (dbTagged.events.filter (fun e => decide (e.tag = some "A"))).length = 2 := by
  have h1 := delete_tag_detaches_events dbTagged 1
    { id := 1, name := "A", color := "#111111", order_index := 1, created_at := 0 }
  have h2 := delete_tag_detaches_events dbTagged 99
    { id := 1, name := "A", color := "#111111", order_index := 1, created_at := 0 }
  exact ⟨h1.1 (by decide) (by decide) rfl, h2.2 (by decide), by decide⟩
